import Mathlib

/-!
Verification of the registry module loader
(`checkov/terraform/module_loading/loaders/registry_loader.py`).

The Python source is shallowly embedded below: strings are Lean `String`s
(manipulated through their `List Char` data where Python string methods are
modelled), stateful methods become functions on an explicit `LoaderState`,
network and filesystem effects are passed in as explicit inputs, and Python
exceptions that can escape a method are an explicit `Except` error channel.
-/

namespace RegistryLoaderModel

/-- Python `s.startswith(pre)`. -/
def py_startswith (s pre : String) : Bool :=
  pre.data.isPrefixOf s.data

/-- Substring occurrence over character lists. -/
def isSubstrList (needle : List Char) : List Char → Bool
  | [] => needle.isEmpty
  | h :: t => needle.isPrefixOf (h :: t) || isSubstrList needle t

/-- Python `needle in hay` (substring containment). -/
def py_contains (hay needle : String) : Bool :=
  isSubstrList needle.data hay.data

/-- Python `s.split(sep)` for a single-character separator `sep`. -/
def splitChar (sep : Char) : List Char → List (List Char)
  | [] => [[]]
  | c :: rest =>
    if c = sep then
      [] :: splitChar sep rest
    else
      match splitChar sep rest with
      | [] => [[c]]
      | h :: t => (c :: h) :: t

/-- `//` occurs at the current head position. -/
def dsAt (c : Char) (rest : List Char) : Bool :=
  (c == '/') && (rest.head? == some '/')

/-- Python `s.split("//")`: split on non-overlapping occurrences of `//`,
leftmost-first. -/
def splitDoubleSlash : List Char → List (List Char)
  | [] => [[]]
  | [c] => [[c]]
  | c :: d :: rest =>
    if c = '/' ∧ d = '/' then
      [] :: splitDoubleSlash rest
    else
      match splitDoubleSlash (d :: rest) with
      | [] => [[c]]
      | h :: t => (c :: h) :: t

/-- Whether a character list contains `//` as a substring. -/
def containsDS : List Char → Bool
  | [] => false
  | c :: rest => dsAt c rest || containsDS rest

/-- Python `s.strip()` on character lists. -/
def trimChars (l : List Char) : List Char :=
  ((l.dropWhile Char.isWhitespace).reverse.dropWhile Char.isWhitespace).reverse

/-- One fuel-indexed step list for Python `s.replace(old, new)`
(non-overlapping, leftmost-first; `old` nonempty at every call site). -/
def replaceList (old new : List Char) : Nat → List Char → List Char
  | 0, s => s
  | _ + 1, [] => []
  | n + 1, c :: rest =>
    if old ≠ [] ∧ old.isPrefixOf (c :: rest) then
      new ++ replaceList old new n ((c :: rest).drop old.length)
    else
      c :: replaceList old new n rest

/-- Python `s.replace(old, new)`. -/
def py_replace (s old new : String) : String :=
  ⟨replaceList old.data new.data (s.data.length + 1) s.data⟩

/-- Python `os.path.join(*parts)` for POSIX paths. -/
def py_path_join (parts : List String) : String :=
  parts.foldl
    (fun path comp =>
      if py_startswith comp "/" then comp
      else if path = "" ∨ path.endsWith "/" then path ++ comp
      else path ++ "/" ++ comp)
    ""

/-! ## Version constraints

The version parsing and matching helpers live in
`checkov/terraform/module_loading/loaders/versions_parser.py`, which is not
part of the sources under verification; they are modelled from the spec. -/

/-- Modelled from the spec: the constraint-clause operators
(`=`, `!=`, `>`, `>=`, `<`, `<=`, `~>`), `versions_parser.py` not being in
the verified sources. -/
inductive ConstraintOp
  | eq | ne | gt | ge | lt | le | pessimistic
deriving DecidableEq, Repr

/-- Modelled from the spec: one constraint clause is an operator plus a
version string. -/
structure VersionConstraint where
  op : ConstraintOp
  version : String
deriving DecidableEq, Repr

/-- Read a nonempty all-digit segment as a number. -/
def readNat (seg : List Char) : Option Nat :=
  if seg ≠ [] ∧ seg.all Char.isDigit then
    some (seg.foldl (fun n c => n * 10 + (c.toNat - 48)) 0)
  else
    none

/-- Modelled from the spec: a version string parses into its dot-separated
numeric segments. -/
def parseVersion (l : List Char) : Option (List Nat) :=
  (splitChar '.' l).mapM readNat

/-- Modelled from the spec: versions compare segment-by-segment, numerically,
most significant first; missing segments count as zero. -/
def cmpSegs : List Nat → List Nat → Ordering
  | [], bs => if bs.all (· == 0) then .eq else .lt
  | a :: as, [] => if a = 0 then cmpSegs as [] else .gt
  | a :: as, b :: bs =>
    if a < b then .lt else if b < a then .gt else cmpSegs as bs

/-- Upper bound used by the pessimistic operator: `~> 3.0.4` allows
`>= 3.0.4, < 3.1`, and `~> 3` allows `>= 3, < 4`. -/
def bumpSegs (l : List Nat) : List Nat :=
  match l.dropLast with
  | [] => [l.headD 0 + 1]
  | f => f.dropLast ++ [f.getLastD 0 + 1]

/-- Modelled from the spec: split an optional leading comparison operator off
a trimmed clause; with no recognized operator the clause is a pin. -/
def opSplit : List Char → ConstraintOp × List Char
  | [] => (.eq, [])
  | c :: r =>
    if c = '>' then
      if r.head? = some '=' then (.ge, r.tail) else (.gt, r)
    else if c = '<' then
      if r.head? = some '=' then (.le, r.tail) else (.lt, r)
    else if c = '!' then
      if r.head? = some '=' then (.ne, r.tail) else (.eq, c :: r)
    else if c = '~' then
      if r.head? = some '>' then (.pessimistic, r.tail) else (.eq, c :: r)
    else if c = '=' then (.eq, r)
    else (.eq, c :: r)

/-- A clause body must look like a version: nonempty, digits and dots only. -/
def clause_shape_ok (l : List Char) : Bool :=
  !l.isEmpty && l.all (fun c => c.isDigit || c == '.')

/-- Modelled from the spec: parse one comma-separated constraint clause;
clauses that do not look like `operator? version` are dropped. -/
def parse_clause (s : List Char) : Option VersionConstraint :=
  if clause_shape_ok (trimChars (opSplit (trimChars s)).2) then
    some ⟨(opSplit (trimChars s)).1, ⟨trimChars (opSplit (trimChars s)).2⟩⟩
  else none

/-- Modelled from the spec: `get_version_constraints` parses the constraint
expression into its set of clauses. -/
def get_version_constraints (s : String) : List VersionConstraint :=
  (splitChar ',' s.data).filterMap parse_clause

/-- Modelled from the spec: `versions_matching` decides one clause against a
candidate version; unparseable versions match nothing. -/
def versions_matching (c : VersionConstraint) (v : String) : Bool :=
  match parseVersion v.data, parseVersion c.version.data with
  | some a, some b =>
    match c.op with
    | .eq => decide (cmpSegs a b = .eq)
    | .ne => decide (cmpSegs a b ≠ .eq)
    | .gt => decide (cmpSegs a b = .gt)
    | .ge => decide (cmpSegs a b ≠ .lt)
    | .lt => decide (cmpSegs a b = .lt)
    | .le => decide (cmpSegs a b ≠ .gt)
    | .pessimistic =>
      decide (cmpSegs a b ≠ .lt) && decide (cmpSegs a (bumpSegs b) = .lt)
  | _, _ => false

/-- Registry version strings as they appear in a fetched version list:
nonempty, digits and dots only, parseable. -/
def isPlainVersion (v : String) : Bool :=
  clause_shape_ok v.data && (parseVersion v.data).isSome

/-- Segment view used only for ordering a fetched version list. -/
def segsOf (v : String) : List Nat :=
  (parseVersion v.data).getD []

/-- Insert into a descending-ordered list, keeping ties stable. -/
def insertDesc (v : String) : List String → List String
  | [] => [v]
  | h :: t =>
    if cmpSegs (segsOf v) (segsOf h) = .gt then v :: h :: t
    else h :: insertDesc v t

/-- Modelled from the spec: `order_versions_in_descending_order` sorts the
available versions by semantic precedence, newest first, ties stable. -/
def order_versions_in_descending_order (l : List String) : List String :=
  l.foldr insertDesc []

/-! ## Data model -/

/-- Python exceptions that the embedded methods can let escape. -/
inductive PyErr
  | indexError
  | unboundLocalError
  | requestException
  | jsonError
deriving DecidableEq, Repr

/-- `checkov.terraform.module_loading.content.ModuleContent` (not among the
verified sources; modelled from the spec's `ResolvedModule` and the
constructor calls in `registry_loader.py`): a directory on success, a
`next_url` for registry indirection, a `failed_url` tagging a failure. -/
structure ModuleContent where
  dir : Option String
  next_url : Option String := none
  failed_url : Option String := none
deriving DecidableEq, Repr

/-- How many of the three `ResolvedModule` outcome fields (success directory,
redirect `next_url`, failure `failed_url`) are populated. -/
def states_count (m : ModuleContent) : Nat :=
  (if m.dir.isSome then 1 else 0) + (if m.next_url.isSome then 1 else 0) +
    (if m.failed_url.isSome then 1 else 0)

/-- The download response: its HTTP status and its `X-Terraform-Get`
header, the only parts `_load_module` reads. -/
structure HttpResponse where
  status : Nat
  xTerraformGet : Option String := none
deriving DecidableEq, Repr

/-- Outcome of `RegistryGetter.do_get()` (the content fetcher, an external
collaborator): success, or a raised exception carrying its message. -/
inductive ExtractOutcome
  | ok
  | raised (msg : String)
deriving DecidableEq, Repr

/-- Outcome of the `requests.get` + body decoding in
`_cache_available_versions`: an `HTTPError` from `raise_for_status` (the only
exception the method catches), a connection-level `requests` exception, a
malformed JSON body, or a version list. -/
inductive FetchVersionsResult
  | httpError
  | connectionError
  | malformedBody
  | ok (versions : List String)
deriving DecidableEq, Repr

/-- `checkov.common.models.consts.TFC_HOST_NAME` (not among the verified
sources; modelled from the spec's "private registry hostname"). -/
def TFC_HOST_NAME : String := "app.terraform.io"

/-- Public registry base URL (default of `REGISTRY_URL_PREFIX`). -/
def public_registry_base : String := "https://registry.terraform.io/v1/modules"

/-- The archive-object URL base checked against `X-Terraform-Get`. -/
def archivist_url_base : String := "https://archivist.terraform.io/v1/object"

/-- The mutable fields of a `RegistryLoader` instance that the embedded
methods read and write, plus the class-wide versions cache (an association
list keyed by the versions URL, newest entry first). -/
structure LoaderState where
  module_source : String := ""
  version : String := "latest"
  dest_dir : String := ""
  inner_module : String := ""
  root_dir : String := ""
  external_modules_folder_name : String := ".external_modules"
  registry_url_base : String := public_registry_base
  module_version_url : String := ""
  best_version : String := ""
  cache : List (String × List String) := []
deriving DecidableEq, Repr

/-! ## Embedded methods of `RegistryLoader` -/

/-- `RegistryLoader._process_inner_registry_module` (lines 146-155): split the
source at `//`, truncate `dest_dir` at its own `//`. -/
def process_inner_registry_module (st : LoaderState) : LoaderState :=
  match splitDoubleSlash st.module_source.data with
  | s0 :: s1 :: _ =>
    { st with
      module_source := ⟨s0⟩
      dest_dir := ⟨(splitDoubleSlash st.dest_dir.data).headD []⟩
      inner_module := ⟨s1⟩ }
  | _ => st

/-- Number of leading constraint clauses a candidate satisfies: the value of
`num_of_matches` after the inner `for`/`break` loop of `_find_best_version`
(lines 118-123). -/
def leading_matches (cs : List VersionConstraint) (v : String) : Nat :=
  match cs with
  | [] => 0
  | c :: rest =>
    if versions_matching c v then 1 + leading_matches rest v else 0

/-- The outer loop of `_find_best_version` (lines 118-128): first candidate
whose leading-match count equals the clause count wins, else `"latest"`. -/
def best_version_walk (cs : List VersionConstraint) : List String → String
  | [] => "latest"
  | v :: rest =>
    if leading_matches cs v = cs.length then v else best_version_walk cs rest

/-- `RegistryLoader._find_best_version` (lines 112-128) on the cached version
list; `versions_by_size[0]` on an empty list raises `IndexError`. -/
def find_best_version (versions_by_size : List String) (version : String) :
    Except PyErr String :=
  if version = "latest" then
    match versions_by_size with
    | [] => .error .indexError
    | v0 :: _ =>
      .ok (best_version_walk (get_version_constraints v0) versions_by_size)
  else
    .ok (best_version_walk (get_version_constraints version) versions_by_size)

/-- The spec's own wording of the best-version selection (§4.3): the first
version of the descending list satisfying every clause, with the literal
`"latest"` as the fallback. -/
def best_version_spec (versions : List String) (cs : List VersionConstraint) :
    String :=
  (versions.find? (fun v => cs.all (fun c => versions_matching c v))).getD
    "latest"

/-- `RegistryLoader._cache_available_versions` (lines 130-144): only
`HTTPError` is caught (returning `False`); a connection-level error or a
malformed body escapes. -/
def cache_available_versions (st : LoaderState) (fetch : FetchVersionsResult) :
    Except PyErr (Bool × LoaderState) :=
  match fetch with
  | .httpError => .ok (false, st)
  | .connectionError => .error .requestException
  | .malformedBody => .error .jsonError
  | .ok vs =>
    .ok (true,
      { st with
        cache :=
          (st.module_version_url, order_versions_in_descending_order vs) ::
            st.cache })

/-- Line 52: `"/".join((self.REGISTRY_URL_PREFIX, self.module_source, "versions"))`. -/
def versions_url (base source : String) : String :=
  base ++ "/" ++ source ++ "/" ++ "versions"

/-- Lines 40-52 of `_is_matching_loader`: select the private or public
registry base, strip the private hostname, and build the versions URL. -/
def after_host_rewrite (st : LoaderState) : LoaderState :=
  let st' :=
    if py_startswith st.module_source TFC_HOST_NAME then
      { st with
        registry_url_base :=
          "https://" ++ TFC_HOST_NAME ++ "/api/registry/v1/modules"
        module_source := py_replace st.module_source (TFC_HOST_NAME ++ "/") "" }
    else
      { st with registry_url_base := public_registry_base }
  { st' with
    module_version_url := versions_url st'.registry_url_base st'.module_source }

/-- Lines 57-72 of `_is_matching_loader`: cache probe, versions fetch, best
version, destination directory, filesystem probe, cache re-probe. -/
def is_matching_after_url (st : LoaderState) (fs : String → Bool)
    (fetch : FetchVersionsResult) : Except PyErr (Bool × LoaderState) :=
  if (st.cache.lookup st.module_version_url).isSome then .ok (true, st)
  else
    match cache_available_versions st fetch with
    | .error e => .error e
    | .ok (false, st) => .ok (false, st)
    | .ok (true, st) =>
      match
        find_best_version ((st.cache.lookup st.module_version_url).getD [])
          st.version
      with
      | .error e => .error e
      | .ok bv =>
        let st := { st with best_version := bv }
        let st :=
          if st.inner_module = "" then
            { st with
              dest_dir :=
                py_path_join
                  ([st.root_dir, st.external_modules_folder_name,
                      TFC_HOST_NAME] ++
                    (splitChar '/' st.module_source.data).map
                      (fun l => (⟨l⟩ : String)) ++
                    [st.best_version]) }
          else st
        if fs st.dest_dir then .ok (true, st)
        else if (st.cache.lookup st.module_version_url).isSome then
          .ok (true, st)
        else .ok (false, st)

/-- `RegistryLoader._is_matching_loader` (lines 34-72). `fs` is the
`os.path.exists` oracle, `fetch` the outcome of the versions request. -/
def is_matching_loader (st : LoaderState) (fs : String → Bool)
    (fetch : FetchVersionsResult) : Except PyErr (Bool × LoaderState) :=
  if py_startswith st.module_source "github.com" ||
      py_startswith st.module_source "bitbucket.org" ||
      py_startswith st.module_source "git::" then
    .ok (false, st)
  else
    let st1 := after_host_rewrite (process_inner_registry_module st)
    if ¬ py_startswith st1.module_version_url st1.registry_url_base = true then
      .ok (false, st1)
    else
      is_matching_after_url st1 fs fetch

/-- `_is_matching_loader` with the local-path rejection of lines 53-55
removed; claim C10 says the two agree everywhere. -/
def is_matching_loader_no_local_check (st : LoaderState) (fs : String → Bool)
    (fetch : FetchVersionsResult) : Except PyErr (Bool × LoaderState) :=
  if py_startswith st.module_source "github.com" ||
      py_startswith st.module_source "bitbucket.org" ||
      py_startswith st.module_source "git::" then
    .ok (false, st)
  else
    is_matching_after_url (after_host_rewrite (process_inner_registry_module st))
      fs fetch

/-- `RegistryLoader._load_module` (lines 74-106). `dest_exists` is
`os.path.exists(self.dest_dir)`, `resp` the download response, `extract` the
content fetcher's outcome; the second component counts HTTP requests issued.
A `.ok none` result is Python's implicit `None` return (falling off the end
of the function); `.error` is an uncaught exception. -/
def load_module (st : LoaderState) (dest_exists : Bool) (resp : HttpResponse)
    (extract : ExtractOutcome) : Except PyErr (Option ModuleContent) × Nat :=
  if dest_exists then (.ok (some { dir := some st.dest_dir }), 0)
  else
    if 400 ≤ resp.status ∧ resp.status < 600 then
      -- `raise_for_status` raised `HTTPError`
      if resp.status ≠ 200 ∧ resp.status ≠ 204 then
        (.ok (some { dir := none }), 1)
      else
        (.ok none, 1)
    else
      let module_download_url := (resp.xTerraformGet).getD ""
      if py_startswith module_download_url archivist_url_base then
        match extract with
        | .ok =>
          let return_dir := st.dest_dir
          let return_dir :=
            if st.inner_module ≠ "" then
              py_path_join [st.dest_dir, st.inner_module]
            else return_dir
          (.ok (some { dir := some return_dir }), 1)
        | .raised msg =>
          if !py_contains msg "File exists" &&
              !py_contains msg "already exists and is not an empty directory" then
            (.ok (some { dir := none, failed_url := some st.module_source }), 1)
          else
            -- benign failure: `return_dir` was never assigned
            if st.inner_module ≠ "" then
              (.ok (some { dir := some (py_path_join [st.dest_dir, st.inner_module]) }), 1)
            else
              (.error .unboundLocalError, 1)
      else
        (.ok (some { dir := none, next_url := some ((resp.xTerraformGet).getD "") }), 1)

/-! ## The redirect-following driver -/

/-- Outcome of a full resolution attempt. -/
inductive ResolveOutcome
  | resolved (dir : String)
  | failed (failedSource : Option String)
  | redirectLoopExceeded
deriving DecidableEq, Repr

/-- Modelled from the spec: the fixed maximum hop count for the
`X-Terraform-Get` indirection chain (the loader-chain caller that re-resolves
`next_url` is not among the verified sources; §4.2 and §7 require a bounded
chain ending in `RedirectLoopExceeded`). -/
def MAX_REDIRECT_HOPS : Nat := 5

/-- Modelled from the spec: follow `next_url` indirection, spending one hop
per redirect, until a terminal outcome or hop exhaustion. `registry` maps a
download URL to its response. -/
def resolve_with_redirects (st : LoaderState) (registry : String → HttpResponse)
    (extract : ExtractOutcome) : Nat → String → ResolveOutcome
  | 0, _ => .redirectLoopExceeded
  | n + 1, url =>
    match (load_module st false (registry url) extract).1 with
    | .error _ => .failed none
    | .ok none => .failed none
    | .ok (some mc) =>
      match mc.next_url with
      | some next => resolve_with_redirects st registry extract n next
      | none =>
        match mc.dir with
        | some d => .resolved d
        | none => .failed mc.failed_url

/-- A download response that neither raises nor carries an archive-object
URL: the loader turns it into a redirect. -/
def is_redirect_response (r : HttpResponse) : Bool :=
  !(400 ≤ r.status && r.status < 600) &&
    !py_startswith ((r.xTerraformGet).getD "") archivist_url_base

/-! ## Helper lemmas -/

theorem isPrefixOf_append_self (l r : List Char) : l.isPrefixOf (l ++ r) = true := by
  induction l with
  | nil => simp
  | cons c cs ih => simp [List.isPrefixOf_cons₂, ih]

theorem versions_url_startswith (base source : String) :
    py_startswith (versions_url base source) base = true := by
  simp only [py_startswith, versions_url, String.data_append, List.append_assoc]
  exact isPrefixOf_append_self _ _

theorem containsDS_cons_false {c : Char} {t : List Char}
    (h : containsDS (c :: t) = false) :
    dsAt c t = false ∧ containsDS t = false := by
  simpa [containsDS] using h

theorem containsDS_append_left {l m : List Char}
    (h : containsDS (l ++ m) = false) : containsDS l = false := by
  induction l with
  | nil => rfl
  | cons c t ih =>
    rw [List.cons_append] at h
    obtain ⟨h1, h2⟩ := containsDS_cons_false h
    have hds : dsAt c t = false := by
      cases t with
      | nil => simp [dsAt]
      | cons d t' => simpa [dsAt] using h1
    simp [containsDS, hds, ih h2]

theorem sds_of_no_ds {b : List Char} (h : containsDS b = false) :
    splitDoubleSlash b = [b] := by
  induction b with
  | nil => rfl
  | cons c t ih =>
    cases t with
    | nil => rfl
    | cons d t' =>
      obtain ⟨h1, h2⟩ := containsDS_cons_false h
      have hcd : ¬(c = '/' ∧ d = '/') := by
        rintro ⟨rfl, rfl⟩
        simp [dsAt] at h1
      rw [splitDoubleSlash, if_neg hcd, ih h2]

theorem sds_append {a : List Char} (b : List Char)
    (h : containsDS (a ++ ['/']) = false) :
    splitDoubleSlash (a ++ '/' :: '/' :: b) = a :: splitDoubleSlash b := by
  induction a with
  | nil => simp [splitDoubleSlash]
  | cons c t ih =>
    rw [List.cons_append] at h
    obtain ⟨h1, h2⟩ := containsDS_cons_false h
    cases t with
    | nil =>
      have hc : c ≠ '/' := by simpa [dsAt] using h1
      simp only [List.cons_append, List.nil_append]
      rw [splitDoubleSlash, if_neg (fun hp => hc hp.1)]
      rw [show splitDoubleSlash ('/' :: '/' :: b) = [] :: splitDoubleSlash b by
        simp [splitDoubleSlash]]
    | cons d t' =>
      have hds : ¬(c = '/' ∧ d = '/') := by
        rintro ⟨rfl, rfl⟩
        simp [dsAt] at h1
      rw [List.cons_append, List.cons_append, splitDoubleSlash, if_neg hds]
      rw [show d :: (t' ++ '/' :: '/' :: b) = (d :: t') ++ '/' :: '/' :: b from
        rfl, ih h2]

theorem dropWhile_eq_self_of {p : Char → Bool} {l : List Char}
    (h : ∀ c ∈ l, p c = false) : l.dropWhile p = l := by
  cases l with
  | nil => rfl
  | cons c t => simp [List.dropWhile_cons, h c (by simp)]

theorem trimChars_eq_self {l : List Char}
    (h : ∀ c ∈ l, c.isWhitespace = false) : trimChars l = l := by
  unfold trimChars
  rw [dropWhile_eq_self_of h,
    dropWhile_eq_self_of (fun c hc => h c (by simpa using hc)),
    List.reverse_reverse]

theorem splitChar_eq_self {sep : Char} {l : List Char}
    (h : ∀ c ∈ l, c ≠ sep) : splitChar sep l = [l] := by
  induction l with
  | nil => rfl
  | cons c t ih =>
    have := h c (by simp)
    simp [splitChar, this, ih (fun d hd => h d (by simp [hd]))]

theorem plain_char_ne {c d : Char} (h : (c.isDigit || c == '.') = true)
    (hd : (d.isDigit || d == '.') = false) : c ≠ d := by
  intro e
  subst e
  simp [h] at hd

theorem plain_not_ws {c : Char} (h : (c.isDigit || c == '.') = true) :
    c.isWhitespace = false := by
  have h1 : c ≠ ' ' := plain_char_ne h (by decide)
  have h2 : c ≠ '\t' := plain_char_ne h (by decide)
  have h3 : c ≠ '\r' := plain_char_ne h (by decide)
  have h4 : c ≠ '\n' := plain_char_ne h (by decide)
  simp [Char.isWhitespace, h1, h2, h3, h4]

theorem cmpSegs_self (l : List Nat) : cmpSegs l l = .eq := by
  induction l with
  | nil => rfl
  | cons a as ih => rw [cmpSegs]; simp [ih]

theorem opSplit_plain {c : Char} {r : List Char}
    (h : (c.isDigit || c == '.') = true) : opSplit (c :: r) = (.eq, c :: r) := by
  have h1 : c ≠ '>' := plain_char_ne h (by decide)
  have h2 : c ≠ '<' := plain_char_ne h (by decide)
  have h3 : c ≠ '!' := plain_char_ne h (by decide)
  have h4 : c ≠ '~' := plain_char_ne h (by decide)
  have h5 : c ≠ '=' := plain_char_ne h (by decide)
  simp [opSplit, h1, h2, h3, h4, h5]

theorem plain_shape {v : String} (h : isPlainVersion v = true) :
    clause_shape_ok v.data = true := by
  unfold isPlainVersion at h
  rw [Bool.and_eq_true] at h
  exact h.1

theorem plain_chars {v : String} (h : isPlainVersion v = true) :
    ∀ c ∈ v.data, (c.isDigit || c == '.') = true := by
  have hs := plain_shape h
  unfold clause_shape_ok at hs
  rw [Bool.and_eq_true] at hs
  exact fun c hc => List.all_eq_true.mp hs.2 c hc

theorem plain_nonempty {v : String} (h : isPlainVersion v = true) :
    v.data ≠ [] := by
  have hs := plain_shape h
  intro hnil
  rw [hnil] at hs
  simp [clause_shape_ok] at hs

theorem parse_clause_plain {v : String} (h : isPlainVersion v = true) :
    parse_clause v.data = some ⟨.eq, v⟩ := by
  have hall := plain_chars h
  have htrim : trimChars v.data = v.data :=
    trimChars_eq_self (fun c hc => plain_not_ws (hall c hc))
  obtain ⟨c, rest, hv⟩ : ∃ c rest, v.data = c :: rest := by
    cases hcv : v.data with
    | nil => exact absurd hcv (plain_nonempty h)
    | cons c rest => exact ⟨c, rest, rfl⟩
  have hop : opSplit (trimChars v.data) = (.eq, v.data) := by
    rw [htrim, hv]
    exact opSplit_plain (hall c (by rw [hv]; exact List.mem_cons_self c rest))
  unfold parse_clause
  rw [hop]
  rw [show ((ConstraintOp.eq, v.data).2 : List Char) = v.data from rfl, htrim,
    plain_shape h]
  rfl

theorem get_version_constraints_plain {v : String}
    (h : isPlainVersion v = true) : get_version_constraints v = [⟨.eq, v⟩] := by
  unfold get_version_constraints
  rw [splitChar_eq_self (fun c hc => plain_char_ne (plain_chars h c hc) (by decide)),
    List.filterMap_cons_some (parse_clause_plain h)]
  rfl

theorem versions_matching_self {v : String} (h : isPlainVersion v = true) :
    versions_matching ⟨.eq, v⟩ v = true := by
  have hp : (parseVersion v.data).isSome = true := by
    simp [isPlainVersion, Bool.and_eq_true] at h
    exact h.2
  obtain ⟨a, ha⟩ := Option.isSome_iff_exists.mp hp
  simp [versions_matching, ha, cmpSegs_self]

theorem leading_matches_eq_length_iff (cs : List VersionConstraint) (v : String) :
    leading_matches cs v = cs.length ↔
      cs.all (fun c => versions_matching c v) = true := by
  induction cs with
  | nil => simp [leading_matches]
  | cons c rest ih =>
    by_cases hm : versions_matching c v = true
    · rw [leading_matches, if_pos hm]
      simp only [List.all_cons, hm, Bool.true_and, List.length_cons]
      constructor
      · intro he
        exact ih.mp (by omega)
      · intro hall
        have := ih.mpr hall
        omega
    · rw [leading_matches, if_neg hm]
      simp only [List.all_cons, List.length_cons]
      constructor
      · intro he
        omega
      · intro hall
        rw [Bool.and_eq_true] at hall
        exact absurd hall.1 hm

theorem best_version_walk_eq_spec (cs : List VersionConstraint) :
    ∀ versions : List String,
      best_version_walk cs versions = best_version_spec versions cs := by
  intro versions
  induction versions with
  | nil => rfl
  | cons v rest ih =>
    unfold best_version_walk best_version_spec
    rw [List.find?_cons]
    by_cases hm : cs.all (fun c => versions_matching c v) = true
    · rw [if_pos ((leading_matches_eq_length_iff cs v).mpr hm), hm]
      rfl
    · rw [if_neg (fun he => hm ((leading_matches_eq_length_iff cs v).mp he))]
      have hm' : cs.all (fun c => versions_matching c v) = false :=
        Bool.eq_false_iff.mpr hm
      rw [hm']
      exact ih.trans rfl

theorem after_host_rewrite_url (st : LoaderState) :
    py_startswith (after_host_rewrite st).module_version_url
      (after_host_rewrite st).registry_url_base = true := by
  unfold after_host_rewrite
  exact versions_url_startswith _ _

/-! ## Claims -/

/-- C2 counterexample: for source `"a//b//c"` the claim asserts `innerModule`
is the entire substring after the first `//`, i.e. `"b//c"`; the code sets it
to the second `split("//")` component `"b"`. -/
theorem c2_counterexample :
    (process_inner_registry_module
        { module_source := "a//b//c", dest_dir := "x//y" }).inner_module = "b" ∧
    (process_inner_registry_module
        { module_source := "a//b//c", dest_dir := "x//y" }).inner_module ≠
      "b//c" := by
  constructor
  · rfl
  · decide

/-- C2 amended: for a source containing `//`, the effective module source is
the substring before the first `//`, `innerModule` is the segment strictly
between the first and the second `//` (the whole remainder only when there is
no second `//`), and the destination directory is truncated at its own first
`//`. -/
theorem c2_amended_inner_module (st : LoaderState) (a b r d e : List Char)
    (hsrc : st.module_source.data = a ++ '/' :: '/' :: b ∨
            st.module_source.data = a ++ '/' :: '/' :: (b ++ '/' :: '/' :: r))
    (hdest : st.dest_dir.data = d ++ '/' :: '/' :: e)
    (ha : containsDS (a ++ ['/']) = false)
    (hb : containsDS (b ++ ['/']) = false)
    (hd : containsDS (d ++ ['/']) = false) :
    (process_inner_registry_module st).module_source = (⟨a⟩ : String) ∧
    (process_inner_registry_module st).inner_module = (⟨b⟩ : String) ∧
    (process_inner_registry_module st).dest_dir = (⟨d⟩ : String) := by
  have hb' : containsDS b = false := containsDS_append_left hb
  obtain ⟨t, hsplit⟩ : ∃ t, splitDoubleSlash st.module_source.data = a :: b :: t := by
    rcases hsrc with h | h
    · exact ⟨[], by rw [h, sds_append _ ha, sds_of_no_ds hb']⟩
    · exact ⟨splitDoubleSlash r, by rw [h, sds_append _ ha, sds_append _ hb]⟩
  unfold process_inner_registry_module
  rw [hsplit]
  refine ⟨rfl, rfl, ?_⟩
  rw [hdest, sds_append _ hd]
  rfl

/-- C2 witness: a concrete instantiation of the amended statement. -/
theorem c2_witness :
    (process_inner_registry_module
        { module_source := "x//y", dest_dir := "p//q" }).module_source = "x" ∧
    (process_inner_registry_module
        { module_source := "x//y", dest_dir := "p//q" }).inner_module = "y" ∧
    (process_inner_registry_module
        { module_source := "x//y", dest_dir := "p//q" }).dest_dir = "p" :=
  c2_amended_inner_module { module_source := "x//y", dest_dir := "p//q" }
    "x".data "y".data [] "p".data "q".data (Or.inl (by decide)) (by decide)
    (by decide) (by decide) (by decide)

/-- C3: when the destination directory already exists, `_load_module` returns
it immediately, issuing zero HTTP requests. -/
theorem c3_existing_dest_short_circuits (st : LoaderState) (resp : HttpResponse)
    (extract : ExtractOutcome) :
    load_module st true resp extract =
      (.ok (some { dir := some st.dest_dir }), 0) := by
  unfold load_module
  rw [if_pos rfl]

/-- C4: when the download request raises `HTTPError` (`raise_for_status`
raises exactly for statuses 400-599), the status is necessarily neither
200 nor 204 — so the claim's 200/204 exemption is vacuous — and the result is
the failure `ModuleContent` with no directory. -/
theorem c4_http_error_returns_failure (st : LoaderState) (resp : HttpResponse)
    (extract : ExtractOutcome) (h4 : 400 ≤ resp.status)
    (h6 : resp.status < 600) :
    (resp.status ≠ 200 ∧ resp.status ≠ 204) ∧
    (load_module st false resp extract).1 = .ok (some { dir := none }) := by
  have hne : resp.status ≠ 200 ∧ resp.status ≠ 204 := by omega
  refine ⟨hne, ?_⟩
  unfold load_module
  rw [if_neg Bool.false_ne_true, if_pos ⟨h4, h6⟩, if_pos hne]

/-- C4 witness: a 404 download response. -/
theorem c4_witness :
    ((404 : Nat) ≠ 200 ∧ (404 : Nat) ≠ 204) ∧
    (load_module { dest_dir := "/dest" } false { status := 404 }
        ExtractOutcome.ok).1 = .ok (some { dir := none }) :=
  c4_http_error_returns_failure { dest_dir := "/dest" } { status := 404 }
    ExtractOutcome.ok (by decide) (by decide)

/-- C6: evaluation at the failing input. When extraction fails benignly
(message contains `File exists`) and no inner module was recorded,
`_load_module` raises `UnboundLocalError` (`return_dir` was never assigned)
instead of returning the destination directory as the claim states. -/
theorem c6_benign_extraction_without_inner_raises :
    load_module
      { module_source := "terraform-aws-modules/vpc/aws", dest_dir := "/dest" }
      false
      { status := 200,
        xTerraformGet := some "https://archivist.terraform.io/v1/object/abc" }
      (.raised "File exists") = (.error .unboundLocalError, 1) := by
  rfl

/-- C9: a source starting with `github.com`, `bitbucket.org` or `git::` is
never matched, whatever the rest of the string and the environment. -/
theorem c9_vcs_sources_never_match (st : LoaderState) (fs : String → Bool)
    (fetch : FetchVersionsResult)
    (h : py_startswith st.module_source "github.com" = true ∨
         py_startswith st.module_source "bitbucket.org" = true ∨
         py_startswith st.module_source "git::" = true) :
    is_matching_loader st fs fetch = .ok (false, st) := by
  unfold is_matching_loader
  rcases h with h | h | h <;> simp [h]

/-- C9 witness: a concrete github source. -/
theorem c9_witness :
    is_matching_loader { module_source := "github.com/org/repo//sub" }
      (fun _ => false) (.ok ["1.0.0"]) =
      .ok (false, { module_source := "github.com/org/repo//sub" }) :=
  c9_vcs_sources_never_match { module_source := "github.com/org/repo//sub" }
    (fun _ => false) (.ok ["1.0.0"]) (Or.inl (by decide))

/-- C10: the versions URL `{base}/{source}/versions` always starts with the
base, so the local-path rejection of lines 53-55 never fires:
`_is_matching_loader` behaves exactly as the same method with that branch
removed. -/
theorem c10_local_path_check_unreachable :
    (∀ base source, py_startswith (versions_url base source) base = true) ∧
    (∀ (st : LoaderState) (fs : String → Bool) (fetch : FetchVersionsResult),
      is_matching_loader st fs fetch =
        is_matching_loader_no_local_check st fs fetch) := by
  refine ⟨versions_url_startswith, fun st fs fetch => ?_⟩
  unfold is_matching_loader is_matching_loader_no_local_check
  split
  · rfl
  · rw [if_neg (not_not_intro (after_host_rewrite_url _))]

/-- C7 counterexample: a download failing with HTTP 404 returns
`ModuleContent(dir=None)` — no directory, no `next_url`, and no `failed_url`
either, so none of the claim's three outcome states is populated. -/
theorem c7_counterexample :
    (load_module { module_source := "ns/mod/aws", dest_dir := "/dest" } false
        { status := 404 } ExtractOutcome.ok).1 =
      .ok (some { dir := none }) ∧
    states_count { dir := none } = 0 := by
  exact ⟨rfl, rfl⟩

/-- C7 amended: every `ModuleContent` that `_load_module` actually returns
populates at most one (not exactly one) of the three outcome fields; the
HTTP-error failure populates none of them, and one corner (benign extraction
failure without an inner module) raises instead of returning. -/
theorem c7_at_most_one_state (st : LoaderState) (dest_exists : Bool)
    (resp : HttpResponse) (extract : ExtractOutcome) (mc : ModuleContent)
    (h : (load_module st dest_exists resp extract).1 = .ok (some mc)) :
    states_count mc ≤ 1 := by
  unfold load_module at h
  repeat' split at h
  all_goals
    (rcases Decidable.em (py_startswith ((resp.xTerraformGet).getD "")
        archivist_url_base = true) with harch | harch <;>
      simp only [harch, if_true, if_false] at h <;> simp at h <;>
      (cases h; simp [states_count]))

/-- C7 witness: the success result of an existing destination directory. -/
theorem c7_witness : states_count { dir := some "/dest" } ≤ 1 :=
  c7_at_most_one_state { dest_dir := "/dest" } true { status := 200 }
    ExtractOutcome.ok { dir := some "/dest" } rfl

/-- C8 counterexample: a versions request that succeeds with an empty version
list, with the default constraint `"latest"`, makes `_is_matching_loader`
raise an uncaught `IndexError` (`versions_by_size[0]` in
`_find_best_version`), contradicting the claim that recognition only fails
softly. -/
theorem c8_counterexample :
    is_matching_loader { module_source := "ns/mod/aws" } (fun _ => false)
      (.ok []) = .error .indexError := by
  rfl

/-- C8 amended: an `HTTPError` during the versions fetch — the only failure
`_cache_available_versions` catches — never escapes `_is_matching_loader`:
recognition then terminates with a plain boolean verdict; but an empty
version list with constraint `"latest"` raises an uncaught `IndexError`. -/
theorem c8_http_error_nonfatal (st : LoaderState) (fs : String → Bool) :
    ∃ b st', is_matching_loader st fs .httpError = .ok (b, st') := by
  unfold is_matching_loader
  split
  · exact ⟨false, st, rfl⟩
  · dsimp only
    split
    · exact ⟨false, _, rfl⟩
    · unfold is_matching_after_url
      split
      · exact ⟨true, _, rfl⟩
      · exact ⟨false, _, rfl⟩

/-- Step lemma for C5: a non-raising, non-archive response turns into a
redirect result carrying the `X-Terraform-Get` value. -/
theorem redirect_step (st : LoaderState) (extract : ExtractOutcome)
    (r : HttpResponse) (h : is_redirect_response r = true) :
    (load_module st false r extract).1 =
      .ok (some { dir := none, next_url := some ((r.xTerraformGet).getD "") }) := by
  unfold is_redirect_response at h
  rw [Bool.and_eq_true] at h
  obtain ⟨h1, h2⟩ := h
  rw [Bool.not_eq_true'] at h1 h2
  have h1' : ¬(400 ≤ r.status ∧ r.status < 600) := by
    intro hp
    simp [hp.1, hp.2] at h1
  unfold load_module
  rw [if_neg Bool.false_ne_true, if_neg h1']
  simp [h2]

/-- Exhaustion lemma for C5: when every response redirects, every fuel level
ends in `redirectLoopExceeded`. -/
theorem resolve_redirects_exhaust (st : LoaderState)
    (registry : String → HttpResponse) (extract : ExtractOutcome)
    (h : ∀ u, is_redirect_response (registry u) = true) :
    ∀ (fuel : Nat) (url : String),
      resolve_with_redirects st registry extract fuel url =
        .redirectLoopExceeded := by
  intro fuel
  induction fuel with
  | zero => intro url; rfl
  | succ n ih =>
    intro url
    unfold resolve_with_redirects
    rw [redirect_step st extract (registry url) (h url)]
    exact ih _

/-- C5: the modelled redirect-following driver spends one hop per
`X-Terraform-Get` indirection; a registry answering every download request
with a non-archive redirect makes resolution terminate with
`redirectLoopExceeded` after the fixed maximum hop count instead of looping
forever. -/
theorem c5_redirect_chain_bounded (st : LoaderState)
    (registry : String → HttpResponse) (extract : ExtractOutcome)
    (url : String) (h : ∀ u, is_redirect_response (registry u) = true) :
    resolve_with_redirects st registry extract MAX_REDIRECT_HOPS url =
      .redirectLoopExceeded :=
  resolve_redirects_exhaust st registry extract h MAX_REDIRECT_HOPS url

/-- C5 witness: a concrete cyclic registry. -/
theorem c5_witness :
    resolve_with_redirects { dest_dir := "/dest" }
      (fun _ => { status := 200, xTerraformGet := some "https://example.com/next" })
      ExtractOutcome.ok MAX_REDIRECT_HOPS "https://example.com/start" =
      .redirectLoopExceeded :=
  c5_redirect_chain_bounded { dest_dir := "/dest" }
    (fun _ => { status := 200, xTerraformGet := some "https://example.com/next" })
    ExtractOutcome.ok "https://example.com/start" (fun _ => rfl)

/-- C1: on a nonempty list of well-formed version strings, `"latest"` selects
the first (newest) entry, and any other constraint selects the first version
satisfying every parsed clause, falling back to the literal `"latest"`
(`best_version_spec` is the spec's own wording of that walk). -/
theorem c1_find_best_version_selects_first_match (versions : List String)
    (constraint : String) (hne : versions ≠ [])
    (hplain : ∀ v ∈ versions, isPlainVersion v = true) :
    (constraint = "latest" →
      find_best_version versions constraint =
        .ok (versions.headD "latest")) ∧
    (constraint ≠ "latest" →
      find_best_version versions constraint =
        .ok (best_version_spec versions (get_version_constraints constraint))) := by
  constructor
  · intro hc
    subst hc
    cases versions with
    | nil => exact absurd rfl hne
    | cons v0 rest =>
      have hp0 := hplain v0 (by simp)
      unfold find_best_version
      rw [if_pos rfl]
      show Except.ok (best_version_walk (get_version_constraints v0) (v0 :: rest)) =
        Except.ok ((v0 :: rest).headD "latest")
      rw [get_version_constraints_plain hp0]
      unfold best_version_walk
      rw [if_pos (by simp [leading_matches, versions_matching_self hp0])]
      rfl
  · intro hc
    unfold find_best_version
    rw [if_neg hc, best_version_walk_eq_spec]

/-- C1 witness: the spec's own examples. -/
theorem c1_witness :
    find_best_version ["3.2.0", "3.1.0", "2.9.9"] ">=3.0.0, <3.2.0" =
      .ok "3.1.0" ∧
    find_best_version ["3.2.0", "3.1.0", "2.9.9"] "latest" = .ok "3.2.0" := by
  constructor
  · have h := (c1_find_best_version_selects_first_match
      ["3.2.0", "3.1.0", "2.9.9"] ">=3.0.0, <3.2.0" (by decide)
      (by decide)).2 (by decide)
    rw [h]
    rfl
  · have h := (c1_find_best_version_selects_first_match
      ["3.2.0", "3.1.0", "2.9.9"] "latest" (by decide) (by decide)).1 rfl
    rw [h]
    rfl

end RegistryLoaderModel
